import Mathlib

/-!
Verification of the moleculer-ws-client packet protocol engine.

The development shallowly embeds the client from src/index.ts (the current
snapshot in the repository): the JSON value model and the structural
serializer and parser standing for the host JSON.stringify and JSON.parse
primitives, the wire packet model, the two built-in codec modes, the
ack-based correlation machinery built on the event emitter, the inbound
packet router, and the disconnect and reconnect handlers.

Conventions of the embedding:
* JavaScript strings are lists of UTF-16 code units (JStr, a List Nat).
* JSON numbers are modelled as integers, which covers every numeric field
  the client itself produces (type tags, ack counters, response ids).
* The serializer renders with no whitespace and escapes exactly the
  characters JSON.stringify escapes; the parser is a recursive-descent
  JSON reader with a fuel argument standing for the recursion of the host
  parser; any fuel at least the size of the value is enough.
* Asynchronous callbacks (emitter listeners, timers, transport events) are
  single-threaded state transitions on an explicit ClientState record, in
  the order the source runs them.
-/

namespace MoleculerWsClient

/-- JavaScript strings as lists of UTF-16 code units. -/
abbrev JStr := List Nat

/-! JSON values, the domain of packet payload data.  Strings are code unit
lists; numbers are modelled as integers (the client only produces integer
numeric fields); objects keep their key order, as JavaScript objects do. -/
mutual
inductive Json where
  | null
  | bool (b : Bool)
  | num (n : Int)
  | str (s : JStr)
  | arr (xs : JsonList)
  | obj (kvs : JsonFields)
deriving DecidableEq, Repr

inductive JsonList where
  | nil
  | cons (hd : Json) (tl : JsonList)
deriving DecidableEq, Repr

inductive JsonFields where
  | nil
  | cons (k : JStr) (v : Json) (tl : JsonFields)
deriving DecidableEq, Repr
end

/-- Code units of a Lean string literal (BMP content only is used). -/
def jstr (s : String) : JStr := s.data.map Char.toNat

def natDigitsAux : Nat → Nat → List Nat
  | 0, _ => []
  | fuel+1, n => if n < 10 then [48 + n] else natDigitsAux fuel (n / 10) ++ [48 + n % 10]

def natDigits (n : Nat) : List Nat := natDigitsAux (n + 1) n

def renderInt : Int → List Nat
  | .ofNat m => natDigits m
  | .negSucc m => 45 :: natDigits (m + 1)

def hexDigitUnit (n : Nat) : Nat := if n < 10 then 48 + n else 87 + n

/-- Escaping of one string code unit, exactly the set JSON.stringify
escapes: quote, backslash, the named controls, and other controls as a
four-digit hex escape. -/
def escapeUnit (c : Nat) : List Nat :=
  if c = 34 then [92, 34]
  else if c = 92 then [92, 92]
  else if c = 8 then [92, 98]
  else if c = 9 then [92, 116]
  else if c = 10 then [92, 110]
  else if c = 12 then [92, 102]
  else if c = 13 then [92, 114]
  else if c < 32 then [92, 117, 48, 48, hexDigitUnit (c / 16), hexDigitUnit (c % 16)]
  else [c]

def escBody : JStr → List Nat
  | [] => []
  | c :: t => escapeUnit c ++ escBody t

def renderStr (s : JStr) : List Nat := 34 :: escBody s ++ [34]

/-! Structural serializer standing for JSON.stringify: no whitespace,
keys in insertion order, strings escaped per escapeUnit. -/
mutual
def renderJson : Json → List Nat
  | .null => [110, 117, 108, 108]
  | .bool true => [116, 114, 117, 101]
  | .bool false => [102, 97, 108, 115, 101]
  | .num n => renderInt n
  | .str s => renderStr s
  | .arr xs => 91 :: renderElems xs ++ [93]
  | .obj kvs => 123 :: renderFields kvs ++ [125]

def renderElems : JsonList → List Nat
  | .nil => []
  | .cons x .nil => renderJson x
  | .cons x (.cons y t) => renderJson x ++ 44 :: renderElems (.cons y t)

def renderFields : JsonFields → List Nat
  | .nil => []
  | .cons k v .nil => renderStr k ++ 58 :: renderJson v
  | .cons k v (.cons k2 v2 t) => renderStr k ++ 58 :: renderJson v ++ 44 :: renderFields (.cons k2 v2 t)
end

def isWsU (c : Nat) : Bool := c = 32 || c = 9 || c = 10 || c = 13

def skipWs : List Nat → List Nat
  | c :: r => if isWsU c then skipWs r else c :: r
  | [] => []

def isDigitU (c : Nat) : Bool := 48 ≤ c && c ≤ 57

def parseDigits : List Nat → Nat → Nat × List Nat
  | c :: r, acc => if isDigitU c then parseDigits r (acc * 10 + (c - 48)) else (acc, c :: r)
  | [], acc => (acc, [])

def parseNumber (l : List Nat) : Option (Int × List Nat) :=
  match l with
  | [] => none
  | c :: r =>
    if c = 45 then
      match r with
      | [] => none
      | d :: _ =>
        if isDigitU d then
          let p := parseDigits r 0
          some (-(p.1 : Int), p.2)
        else none
    else if isDigitU c then
      let p := parseDigits l 0
      some ((p.1 : Int), p.2)
    else none

def hexVal (c : Nat) : Option Nat :=
  if 48 ≤ c ∧ c ≤ 57 then some (c - 48)
  else if 97 ≤ c ∧ c ≤ 102 then some (c - 87)
  else if 65 ≤ c ∧ c ≤ 70 then some (c - 55)
  else none

def unescapeUnit (e : Nat) : Option Nat :=
  if e = 34 then some 34
  else if e = 92 then some 92
  else if e = 47 then some 47
  else if e = 98 then some 8
  else if e = 116 then some 9
  else if e = 110 then some 10
  else if e = 102 then some 12
  else if e = 114 then some 13
  else none

def parseStringBody : List Nat → Option (JStr × List Nat)
  | [] => none
  | c :: r =>
    if c = 34 then some ([], r)
    else if c = 92 then
      match r with
      | [] => none
      | e :: r2 =>
        if e = 117 then
          match r2 with
          | a :: b :: c2 :: d :: r3 =>
            match hexVal a, hexVal b, hexVal c2, hexVal d with
            | some ha, some hb, some hc, some hd =>
              (parseStringBody r3).map fun p => ((ha * 4096 + hb * 256 + hc * 16 + hd) :: p.1, p.2)
            | _, _, _, _ => none
          | _ => none
        else
          match unescapeUnit e with
          | some u => (parseStringBody r2).map fun p => (u :: p.1, p.2)
          | none => none
    else if 32 ≤ c then (parseStringBody r).map fun p => (c :: p.1, p.2)
    else none

def parseValBody (pArr : List Nat → Option (JsonList × List Nat))
    (pObj : List Nat → Option (JsonFields × List Nat)) (l : List Nat) :
    Option (Json × List Nat) :=
  match skipWs l with
  | [] => none
  | c :: r =>
    if c = 110 then
      match r with
      | 117 :: 108 :: 108 :: r2 => some (.null, r2)
      | _ => none
    else if c = 116 then
      match r with
      | 114 :: 117 :: 101 :: r2 => some (.bool true, r2)
      | _ => none
    else if c = 102 then
      match r with
      | 97 :: 108 :: 115 :: 101 :: r2 => some (.bool false, r2)
      | _ => none
    else if c = 34 then
      (parseStringBody r).map fun p => (.str p.1, p.2)
    else if c = 91 then
      match skipWs r with
      | [] => none
      | d :: r2 =>
        if d = 93 then some (.arr .nil, r2)
        else (pArr (d :: r2)).map fun p => (.arr p.1, p.2)
    else if c = 123 then
      match skipWs r with
      | [] => none
      | d :: r2 =>
        if d = 125 then some (.obj .nil, r2)
        else (pObj (d :: r2)).map fun p => (.obj p.1, p.2)
    else
      (parseNumber (c :: r)).map fun p => (.num p.1, p.2)

def parseArrBody (pVal : List Nat → Option (Json × List Nat))
    (pArr : List Nat → Option (JsonList × List Nat)) (l : List Nat) :
    Option (JsonList × List Nat) :=
  (pVal l).bind fun p =>
    match skipWs p.2 with
    | [] => none
    | c :: r =>
      if c = 44 then (pArr r).map fun q => (.cons p.1 q.1, q.2)
      else if c = 93 then some (.cons p.1 .nil, r)
      else none

def parseObjBody (pVal : List Nat → Option (Json × List Nat))
    (pObj : List Nat → Option (JsonFields × List Nat)) (l : List Nat) :
    Option (JsonFields × List Nat) :=
  match skipWs l with
  | 34 :: r =>
    (parseStringBody r).bind fun k =>
      match skipWs k.2 with
      | 58 :: r2 =>
        (pVal r2).bind fun v =>
          match skipWs v.2 with
          | [] => none
          | c :: r3 =>
            if c = 44 then (pObj r3).map fun q => (.cons k.1 v.1 q.1, q.2)
            else if c = 125 then some (.cons k.1 v.1 .nil, r3)
            else none
      | _ => none
  | _ => none

mutual
def parseVal : Nat → List Nat → Option (Json × List Nat)
  | 0, _ => none
  | fuel+1, l => parseValBody (parseArrItems fuel) (parseObjItems fuel) l

def parseArrItems : Nat → List Nat → Option (JsonList × List Nat)
  | 0, _ => none
  | fuel+1, l => parseArrBody (parseVal fuel) (parseArrItems fuel) l

def parseObjItems : Nat → List Nat → Option (JsonFields × List Nat)
  | 0, _ => none
  | fuel+1, l => parseObjBody (parseVal fuel) (parseObjItems fuel) l
end

/-- Structural parser standing for JSON.parse: parse one value, then only
trailing whitespace may remain.  The fuel is one more than the input
length, which the round-trip development shows is always enough. -/
def parseJson (l : List Nat) : Option Json :=
  match parseVal (l.length + 1) l with
  | some (j, rest) => if skipWs rest = [] then some j else none
  | none => none

def digitsVal (acc : Nat) (ds : List Nat) : Nat := ds.foldl (fun a c => a * 10 + (c - 48)) acc

def notDigitHead : List Nat → Bool
  | [] => true
  | c :: _ => !isDigitU c

mutual
def sizeJ : Json → Nat
  | .null => 1
  | .bool _ => 1
  | .num _ => 1
  | .str _ => 1
  | .arr xs => 1 + sizeL xs
  | .obj kvs => 1 + sizeF kvs

def sizeL : JsonList → Nat
  | .nil => 0
  | .cons x t => 1 + sizeJ x + sizeL t

def sizeF : JsonFields → Nat
  | .nil => 0
  | .cons _ v t => 1 + sizeJ v + sizeF t
end

/-- PacketType enum from src/index.ts, in declaration order, so the wire
tags are EVENT 0, ACTION 1, RESPONSE 2, SYNC 3. -/
inductive PacketType where
  | EVENT
  | ACTION
  | RESPONSE
  | SYNC
deriving DecidableEq, Repr

def PacketType.toTag : PacketType → Int
  | .EVENT => 0
  | .ACTION => 1
  | .RESPONSE => 2
  | .SYNC => 3

/-- The four payload interfaces: ActionPacket (name, action, data),
EventPacket (event, data), ResponsePacket (id, data), syncPacket
(props, authorized). -/
inductive Payload where
  | action (name : JStr) (act : JStr) (data : Json)
  | event (ev : JStr) (data : Json)
  | response (id : Int) (data : Json)
  | sync (props : Json) (authorized : Bool)
deriving DecidableEq, Repr

def Payload.ptype : Payload → PacketType
  | .action _ _ _ => .ACTION
  | .event _ _ => .EVENT
  | .response _ _ => .RESPONSE
  | .sync _ _ => .SYNC

/-- A valid wire Packet: the optional ack correlation id and the payload.
The numeric type field of the source interface is determined by the
payload variant (every packet the client builds sets both consistently)
and is written and read through PacketType.toTag. -/
structure Packet where
  ack : Option Int
  payload : Payload
deriving DecidableEq, Repr

def Payload.toJson : Payload → Json
  | .action name act data =>
    .obj (.cons (jstr "name") (.str name)
      (.cons (jstr "action") (.str act)
        (.cons (jstr "data") data .nil)))
  | .event ev data =>
    .obj (.cons (jstr "event") (.str ev)
      (.cons (jstr "data") data .nil))
  | .response id data =>
    .obj (.cons (jstr "id") (.num id)
      (.cons (jstr "data") data .nil))
  | .sync props au =>
    .obj (.cons (jstr "props") props
      (.cons (jstr "authorized") (.bool au) .nil))

/-- The JavaScript object a packet literal denotes, with the field order
of the source constructors: type first, then ack when present, then
payload. -/
def packetToJson (p : Packet) : Json :=
  .obj (.cons (jstr "type") (.num p.payload.ptype.toTag)
    (match p.ack with
     | some a => .cons (jstr "ack") (.num a) (.cons (jstr "payload") p.payload.toJson .nil)
     | none => .cons (jstr "payload") p.payload.toJson .nil))

def fieldsGet? : JsonFields → JStr → Option Json
  | .nil, _ => none
  | .cons k v t, key => if k = key then some v else fieldsGet? t key

def jsonToPayload (tag : Int) (pj : Json) : Option Payload :=
  match pj with
  | .obj kvs =>
    if tag = 0 then
      match fieldsGet? kvs (jstr "event"), fieldsGet? kvs (jstr "data") with
      | some (.str ev), some data => some (.event ev data)
      | _, _ => none
    else if tag = 1 then
      match fieldsGet? kvs (jstr "name"), fieldsGet? kvs (jstr "action"), fieldsGet? kvs (jstr "data") with
      | some (.str name), some (.str act), some data => some (.action name act data)
      | _, _, _ => none
    else if tag = 2 then
      match fieldsGet? kvs (jstr "id"), fieldsGet? kvs (jstr "data") with
      | some (.num id), some data => some (.response id data)
      | _, _ => none
    else if tag = 3 then
      match fieldsGet? kvs (jstr "props"), fieldsGet? kvs (jstr "authorized") with
      | some props, some (.bool au) => some (.sync props au)
      | _, _ => none
    else none
  | _ => none

/-- Reading a parsed JSON value back as a Packet.  The source casts the
parsed object without validation; this reader looks up exactly the fields
the client reads (type, ack, payload and the per-variant payload fields),
choosing the payload shape by the numeric type tag. -/
def jsonToPacket (j : Json) : Option Packet :=
  match j with
  | .obj kvs =>
    match fieldsGet? kvs (jstr "type"), fieldsGet? kvs (jstr "payload") with
    | some (.num tag), some pj =>
      (jsonToPayload tag pj).map fun pl =>
        { ack := match fieldsGet? kvs (jstr "ack") with
                 | some (.num a) => some a
                 | _ => none,
          payload := pl }
    | _, _ => none
  | _ => none

/-- JSON.stringify of a packet. -/
def stringifyPacket (p : Packet) : List Nat := renderJson (packetToJson p)

/-- EncodePacket, JSON mode (source lines 447 to 450):
resolve(JSON.stringify(packet)). -/
def encodeJsonMode (p : Packet) : List Nat := stringifyPacket p

/-- DecodePacket, JSON mode (source lines 490 to 493):
resolve(JSON.parse(message)). -/
def decodeJsonMode (msg : List Nat) : Option Packet := (parseJson msg).bind jsonToPacket

/-- EncodePacket, Binary mode (source lines 452 to 461): the serialized
text is split into code units and stored in a Uint8Array, whose element
assignment truncates each unit mod 256. -/
def encodeBinaryMode (p : Packet) : List Nat := (stringifyPacket p).map (fun c => c % 256)

/-- DecodePacket, Binary mode (source lines 495 to 505): each byte becomes
one code unit via String.fromCharCode and the text is parsed. -/
def decodeBinaryMode (bytes : List Nat) : Option Packet := (parseJson bytes).bind jsonToPacket

/-- An EVENT packet whose event name is the single code unit 8364, which
exceeds one byte. -/
def pEuro : Packet := { ack := none, payload := .event [8364] .null }

/-- The error key looked up on response data. -/
def strError : JStr := jstr "error"

def fieldsHasKey : JsonFields → JStr → Bool
  | .nil, _ => false
  | .cons k _ t, key => k = key || fieldsHasKey t key

def fieldsGetD : JsonFields → JStr → Json
  | .nil, _ => .null
  | .cons k v t, key => if k = key then v else fieldsGetD t key

/-- data.hasOwnProperty of the error key: true only for an object value owning the key. -/
def hasOwnError (data : Json) : Bool :=
  match data with
  | .obj kvs => fieldsHasKey kvs strError
  | _ => false

/-- data index access for the error key. Only read under hasOwnError. -/
def getError (data : Json) : Json :=
  match data with
  | .obj kvs => fieldsGetD kvs strError
  | _ => .null

inductive ReadyState where
  | CONNECTING
  | OPEN
  | CLOSING
  | CLOSED
deriving DecidableEq, Repr

/-- Identities of the closures involved with one ack event: the handler
registered by Emitter.once in ExpectResponse, and the fresh arrow function
the timeout callback passes to removeListener.  EventEmitter2 removes
listeners by function identity, so these two never match. -/
inductive AckFn where
  | ackHandler (id : Nat)
  | timeoutRejecter (id : Nat)
deriving DecidableEq, Repr

/-- One resolve or reject invocation on the promise of a correlated
call. -/
inductive Settlement where
  | resolvedWith (data : Json)
  | rejectedWith (err : Json)
  | rejectedTimeout
deriving DecidableEq, Repr

/-- Events emitted on the public emitter surface.  An inbound ACTION
packet falls into the default EVENT branch of the message switch, where
the payload has no event field, hence the no-name constructor. -/
inductive Emitted where
  | connected
  | disconnected (reason : JStr)
  | reconnectAttempt (n : Nat)
  | appEvent (name : JStr) (data : Json)
  | appEventNoName (data : Json)
deriving DecidableEq, Repr

/-- The observable state of one Client instance: the ack counter, the
registered once-listeners for ack events (keyed by ack id with the
identity of the registered function), the armed response timers, every
resolve or reject invocation recorded in order, the session state (props,
authorized), the reconnect attempt counter and pending reconnect timer,
the events emitted on the public surface in order, and the transport
ready state. -/
structure ClientState where
  ack : Nat
  listeners : List (Nat × AckFn)
  timers : List Nat
  settled : List (Nat × Settlement)
  props : Json
  authorized : Bool
  reconnectTries : Nat
  pendingReconnect : Bool
  events : List Emitted
  readyState : ReadyState
deriving DecidableEq, Repr

/-- A freshly constructed client: counter 0, nothing registered, socket
still CONNECTING. -/
def initClient : ClientState :=
  { ack := 0, listeners := [], timers := [], settled := [], props := .obj .nil,
    authorized := false, reconnectTries := 0, pendingReconnect := false,
    events := [], readyState := .CONNECTING }

/-- EventEmitter2 once: register a one-shot listener for the ack event of
the given id. -/
def emitterOnce (id : Nat) (fn : AckFn) (s : ClientState) : ClientState :=
  { s with listeners := s.listeners ++ [(id, fn)] }

/-- EventEmitter2 removeListener: remove the listeners of the event whose
function equals the given one.  It does not invoke the function it is
given. -/
def emitterRemoveListener (id : Nat) (fn : AckFn) (s : ClientState) : ClientState :=
  { s with listeners := s.listeners.filter (fun p => !(p.1 == id && p.2 == fn)) }

/-- Body of the once-handler in ExpectResponse (source lines 315 to 324):
clearTimeout, then reject(data[error]) when data has an own error
property, else resolve(data).  When data is null, data.hasOwnProperty
throws a TypeError before either settlement; the exception is caught and
logged by the messageHandler catch, so nothing is recorded. -/
def ackHandlerRun (id : Nat) (data : Json) (s : ClientState) : ClientState :=
  let s1 := { s with timers := s.timers.erase id }
  if data = .null then s1
  else if hasOwnError data then
    { s1 with settled := s1.settled ++ [(id, .rejectedWith (getError data))] }
  else
    { s1 with settled := s1.settled ++ [(id, .resolvedWith data)] }

/-- Body of the arrow function the timeout callback passes to
removeListener: reject(new Errors.ResponseTimeout()).  Nothing ever
invokes it, since removeListener does not call its argument. -/
def timeoutRejecterRun (id : Nat) (s : ClientState) : ClientState :=
  { s with settled := s.settled ++ [(id, .rejectedTimeout)] }

def runAckListenerBody : AckFn → Json → ClientState → ClientState
  | .ackHandler id, data, s => ackHandlerRun id data s
  | .timeoutRejecter id, _, s => timeoutRejecterRun id s

/-- Client.emitAck (source lines 336 to 338): emit the ack event of the
given id with the response data.  Emitting invokes the once-listeners
registered for that event after removing them; with no listener the emit
is a no-op. -/
def emitAck (id : Int) (data : Json) (s : ClientState) : ClientState :=
  let matched := s.listeners.filter (fun p => ((p.1 : Int) == id))
  let s1 := { s with listeners := s.listeners.filter (fun p => !((p.1 : Int) == id)) }
  matched.foldl (fun st p => runAckListenerBody p.2 data st) s1

/-- The timer duration in ExpectResponse, options.responseTimeout | 30000
on source line 313: a bitwise or (JavaScript ToInt32), not a default
fallback. -/
def effectiveResponseTimeout (t : Nat) : Nat := t ||| 30000

/-- Client.ExpectResponse (source lines 303 to 326): take the current
counter as the ack event id, increment the counter, arm the response
timer for it, and register the once-handler under it. -/
def expectResponse (s : ClientState) : ClientState :=
  emitterOnce s.ack (.ackHandler s.ack)
    { s with ack := s.ack + 1, timers := s.timers ++ [s.ack] }

/-- The setTimeout callback of ExpectResponse fires (source lines 309 to
313): the timer is consumed and the callback body runs, which only calls
removeListener with a freshly created arrow function.  That function was
never registered, so no listener is removed and the reject inside it is
never invoked. -/
def responseTimeoutFire (id : Nat) (s : ClientState) : ClientState :=
  emitterRemoveListener id (.timeoutRejecter id) { s with timers := s.timers.erase id }

/-- Number of recorded settlements of the promise with ack id i. -/
def settledCount (s : ClientState) (i : Nat) : Nat :=
  (s.settled.filter (fun q => q.1 == i)).length

/-- Invariant of the correlation machinery: every registered listener is
the ack handler of its own id, listener ids are below the counter and
pairwise distinct, settled ids are below the counter, a live listener has
no settlement yet, and no id ever settles twice. -/
structure AckInv (s : ClientState) : Prop where
  fns : ∀ p ∈ s.listeners, p.2 = AckFn.ackHandler p.1
  lt : ∀ p ∈ s.listeners, p.1 < s.ack
  nodup : (s.listeners.map Prod.fst).Nodup
  settledLt : ∀ q ∈ s.settled, q.1 < s.ack
  freshKeys : ∀ p ∈ s.listeners, settledCount s p.1 = 0
  atMostOnce : ∀ i, settledCount s i ≤ 1

/-- Operations that touch the correlation machinery: a correlated facade
call, an inbound RESPONSE routed to emitAck, and the firing of an armed
response timer. -/
inductive AckOp where
  | newCall
  | response (id : Int) (data : Json)
  | timerFires (id : Nat)
deriving DecidableEq, Repr

/-- One correlation operation; a timer can only fire while armed. -/
def ackStep (s : ClientState) : AckOp → ClientState
  | .newCall => expectResponse s
  | .response id data => emitAck id data s
  | .timerFires id => if id ∈ s.timers then responseTimeoutFire id s else s

/-- State after a sequence of correlation operations on a fresh client. -/
def runAckOps (ops : List AckOp) : ClientState := ops.foldl ackStep initClient

/-- Client.call (source lines 269 to 276): build the ACTION packet with
ack set to the current counter, send it, and register the response
expectation. -/
def call (name act : JStr) (data : Json) (s : ClientState) : Packet × ClientState :=
  ({ ack := some (s.ack : Int), payload := .action name act data }, expectResponse s)

/-- Client.emit (source lines 253 to 258): an ACTION packet with no ack;
nothing is registered and no timer armed. -/
def emit (name act : JStr) (data : Json) (s : ClientState) : Packet × ClientState :=
  ({ ack := none, payload := .action name act data }, s)

/-- Client.callEvent (source lines 236 to 243): an EVENT packet with ack
set, plus the response expectation. -/
def callEvent (ev : JStr) (data : Json) (s : ClientState) : Packet × ClientState :=
  ({ ack := some (s.ack : Int), payload := .event ev data }, expectResponse s)

/-- Client.emitEvent (source lines 221 to 226): an EVENT packet with no
ack; the state is untouched. -/
def emitEvent (ev : JStr) (data : Json) (s : ClientState) : Packet × ClientState :=
  ({ ack := none, payload := .event ev data }, s)

/-- Client.authenticate (source lines 189 to 196): an ACTION packet to the
internal auth action, always correlated. -/
def authenticate (data : Json) (s : ClientState) : Packet × ClientState :=
  ({ ack := some (s.ack : Int), payload := .action (jstr "internal") (jstr "auth") data },
    expectResponse s)

/-- Client.deauthenticate (source lines 205 to 212): an ACTION packet to
the internal deauth action, always correlated. -/
def deauthenticate (data : Json) (s : ClientState) : Packet × ClientState :=
  ({ ack := some (s.ack : Int), payload := .action (jstr "internal") (jstr "deauth") data },
    expectResponse s)

/-- The switch of Client.messageHandler on a decoded packet (source lines
393 to 416): SYNC replaces the session state, RESPONSE goes to emitAck,
EVENT is emitted on the public surface, and ACTION, having no case of its
own, falls into the default EVENT branch where the payload has no event
name. -/
def handleDecodedPacket (p : Packet) (s : ClientState) : ClientState :=
  match p.payload with
  | .sync props au => { s with props := props, authorized := au }
  | .response id data => emitAck id data s
  | .event ev data => { s with events := s.events ++ [.appEvent ev data] }
  | .action _ _ data => { s with events := s.events ++ [.appEventNoName data] }

/-- The empty object literal assigned to props on disconnect. -/
def emptyObj : Json := .obj .nil

/-- The reconnect option pair: interval in milliseconds and the retry
cap. -/
structure ReconnectOpts where
  interval : Rat
  retries : Nat
deriving DecidableEq

/-- Client.disconnectHandler (source lines 347 to 372), run when the
transport closes: reset the session state; on the custom normal-closure
code 2001 emit disconnected and return; otherwise schedule a reconnect
timer while retries is positive and at least the attempt counter, and
emit disconnected exactly when the attempt counter is still zero. -/
def disconnectHandler (reconnect : Option ReconnectOpts) (code : Int) (reason : JStr)
    (s : ClientState) : ClientState :=
  let s := { s with readyState := .CLOSED, props := emptyObj, authorized := false }
  if code = 2001 then
    { s with events := s.events ++ [.disconnected reason] }
  else
    let s1 : ClientState :=
      match reconnect with
      | some rc =>
        if 0 < rc.retries ∧ s.reconnectTries ≤ rc.retries then
          { s with pendingReconnect := true }
        else s
      | none => s
    if s1.reconnectTries = 0 then { s1 with events := s1.events ++ [.disconnected reason] } else s1

/-- The scheduled reconnect callback (source lines 362 to 366): increment
the attempt counter, run Setup (a fresh CONNECTING transport), and emit
the reconnect event with the new count. -/
def reconnectTimerFire (s : ClientState) : ClientState :=
  if s.pendingReconnect then
    { s with pendingReconnect := false, reconnectTries := s.reconnectTries + 1,
             readyState := .CONNECTING,
             events := s.events ++ [.reconnectAttempt (s.reconnectTries + 1)] }
  else s

/-- Client.connectionHandler (source lines 381 to 384): the transport
opened; reset the attempt counter and emit connected. -/
def connectionHandler (s : ClientState) : ClientState :=
  { s with readyState := .OPEN, reconnectTries := 0, events := s.events ++ [.connected] }

/-- Client.disconnect (source lines 176 to 180): a no-op unless the socket
is OPEN; otherwise request closure with the custom normal-closure code
2001 and the reason, which the close handler recognizes. -/
def disconnect (reason : JStr) (s : ClientState) : ClientState × Option (Int × JStr) :=
  if s.readyState ≠ .OPEN then (s, none)
  else ({ s with readyState := .CLOSING }, some (2001, reason))

/-- The randomized reconnect delay of source line 366:
Math.random() * (interval - interval / 2) + interval / 2. -/
def reconnectDelay (random interval : Rat) : Rat :=
  random * (interval - interval / 2) + interval / 2

/-- Environment in which every reconnect attempt fails: while a reconnect
timer is pending, fire it and deliver an unexpected close (code 1006) for
the failed attempt. -/
def failingRun (rc : ReconnectOpts) : Nat → ClientState → ClientState
  | 0, s => s
  | n+1, s =>
    if s.pendingReconnect then
      failingRun rc n (disconnectHandler (some rc) 1006 [] (reconnectTimerFire s))
    else s

/-- Number of reconnect events emitted so far. -/
def countReconnects (s : ClientState) : Nat :=
  (s.events.filter (fun e => match e with | .reconnectAttempt _ => true | _ => false)).length

/-- Number of disconnected events emitted so far. -/
def countDisconnected (s : ClientState) : Nat :=
  (s.events.filter (fun e => match e with | .disconnected _ => true | _ => false)).length

/-- The reconnect configuration of the claim: retries 3. -/
def rc3 : ReconnectOpts := { interval := 5000, retries := 3 }

/-- The state after an unexpected close of an open client with retries 3
and every reconnect attempt failing, run to quiescence. -/
def c5Final : ClientState :=
  failingRun rc3 10 (disconnectHandler (some rc3) 1006 [] (connectionHandler initClient))

/-! ## Codec promise pipeline (EncodePacket / DecodePacket control flow)

EncodePacket and DecodePacket wrap their work in a promise.  The built-in
branches resolve with the serialized form; a thrown structural-parse error
is caught by the try block and the promise is rejected with an EncodeError
or DecodeError.  When a caller-supplied asynchronous codec function is
configured, its rejection is consumed by a catch handler that merely
constructs the error object without rejecting the wrapper promise, so the
wrapper promise never settles.  On the Json value domain the structural
serializer is total, so the realizable failures are parse failures and
custom-function rejections. -/

inductive WireMsg where
  | text (units : List Nat)
  | binary (bytes : List Nat)
  | customWire (v : Json)
deriving DecidableEq

/-- Result of a caller-supplied asynchronous codec function: its promise
either resolves with a value or rejects with a reason. -/
inductive PromiseOutcome (α : Type) where
  | resolves (v : α)
  | rejects (reason : Json)

/-- The encryption option: the two built-in mode strings, or a function
(the source discriminates with a duck-typed isFunction check). -/
inductive EncConfig where
  | jsonMode
  | binaryMode
  | customFn (f : Packet → PromiseOutcome WireMsg)

inductive CodecError where
  | encodeError
  | decodeError
deriving DecidableEq

/-- The settlement of the promise returned by Client.EncodePacket:
some (ok w) when it resolves with wire message w, some (error e) when it
rejects, and none when it never settles.  In the customFn arm, the source
catch handler is catch(err => new Errors.EncodeError(err)): the EncodeError
is constructed and discarded without calling reject, so a rejection of the
custom function leaves the wrapper promise pending forever. -/
def encodePacketPromise (enc : EncConfig) (p : Packet) : Option (Except CodecError WireMsg) :=
  match enc with
  | .customFn f =>
    match f p with
    | .resolves w => some (.ok w)
    | .rejects _ => none
  | .jsonMode => some (.ok (.text (encodeJsonMode p)))
  | .binaryMode => some (.ok (.binary (encodeBinaryMode p)))

/-- The settlement of the promise returned by Client.DecodePacket.  The
custom path is taken only when both encryption and decryption are
functions; otherwise the switch on the encryption option selects the JSON
branch or (default) the Binary branch.  A structural-parse failure is
caught and rejected as a DecodeError; a custom-function rejection is
swallowed exactly as on the encode side. -/
def decodePacketPromise (enc : EncConfig) (dec : Option (WireMsg → PromiseOutcome Packet))
    (m : WireMsg) : Option (Except CodecError Packet) :=
  match enc, dec with
  | .customFn _, some d =>
    match d m with
    | .resolves p => some (.ok p)
    | .rejects _ => none
  | _, _ =>
    match enc with
    | .jsonMode =>
      match m with
      | .text units =>
        match decodeJsonMode units with
        | some p => some (.ok p)
        | none => some (.error .decodeError)
      | _ => some (.error .decodeError)
    | _ =>
      match m with
      | .binary bytes =>
        match decodeBinaryMode bytes with
        | some p => some (.ok p)
        | none => some (.error .decodeError)
      | _ => some (.error .decodeError)

/-- The facade boundary: Client.send attaches catch(e => this.logger.error(e))
to the EncodePacket promise, so a failure is logged there exactly when that
promise rejects. -/
def sendFailureLogged (enc : EncConfig) (p : Packet) : Bool :=
  match encodePacketPromise enc p with
  | some (.error _) => true
  | _ => false

/-- The messageHandler boundary: the catch on the DecodePacket promise logs
exactly when that promise rejects. -/
def messageFailureLogged (enc : EncConfig) (dec : Option (WireMsg → PromiseOutcome Packet))
    (m : WireMsg) : Bool :=
  match decodePacketPromise enc dec m with
  | some (.error _) => true
  | _ => false

/-- A caller-supplied encode function whose promise rejects. -/
def rejectingEncode : EncConfig := .customFn (fun _ => .rejects (.str (jstr "boom")))

/-- A caller-supplied decode function whose promise rejects. -/
def rejectingDecode : WireMsg → PromiseOutcome Packet := fun _ => .rejects (.str (jstr "boom"))

/-- ClientError from src/errors.ts: its constructor returns the plain object
with the single error field, so wrapping E yields the object with key error
and value E. -/
def clientErrorWrap (e : Json) : Json := .obj (.cons strError e .nil)

/-- The packet of the spec scenario: call with ASCII-only content. -/
def pAscii : Packet :=
  { ack := some 1,
    payload := .action (jstr "users") (jstr "get") (.obj (.cons (jstr "id") (.num 1) .nil)) }

/-- The state right after one correlated call on a fresh client: ack id 0
is registered and its response timer is armed. -/
def c1State : ClientState := expectResponse initClient

/-- A RESPONSE data object carrying an error field. -/
def c4Data : Json := .obj (.cons strError (.str (jstr "boom")) .nil)

/-! ## Properties -/

theorem natDigitsAux_all {fuel n : Nat} (h : n < fuel) :
    ∀ c ∈ natDigitsAux fuel n, isDigitU c = true := by
  induction fuel generalizing n with
  | zero => omega
  | succ fuel ih =>
    intro c hc
    simp only [natDigitsAux] at hc
    split at hc
    · rename_i h10
      simp at hc
      simp [isDigitU, hc]; omega
    · rename_i h10
      rcases List.mem_append.mp hc with h1 | h2
      · exact ih (by have := Nat.div_lt_self (by omega : 0 < n) (by norm_num : 1 < 10); omega) c h1
      · simp at h2
        have : n % 10 < 10 := Nat.mod_lt _ (by norm_num)
        simp [isDigitU, h2]; omega

theorem natDigitsAux_head {fuel n : Nat} (h : n < fuel) :
    ∃ c cs, natDigitsAux fuel n = c :: cs ∧ isDigitU c = true := by
  induction fuel generalizing n with
  | zero => omega
  | succ fuel ih =>
    simp only [natDigitsAux]
    split
    · rename_i h10
      exact ⟨48 + n, [], rfl, by simp [isDigitU]; omega⟩
    · rename_i h10
      obtain ⟨c, cs, hc, hd⟩ := ih
        (show n / 10 < fuel by
          have := Nat.div_lt_self (by omega : 0 < n) (by norm_num : 1 < 10); omega)
      exact ⟨c, cs ++ [48 + n % 10], by rw [hc]; rfl, hd⟩

theorem natDigitsAux_val {fuel n : Nat} (h : n < fuel) (acc : Nat) :
    digitsVal acc (natDigitsAux fuel n) = acc * 10 ^ (natDigitsAux fuel n).length + n := by
  induction fuel generalizing n acc with
  | zero => omega
  | succ fuel ih =>
    simp only [natDigitsAux]
    split
    · rename_i h10
      simp only [digitsVal, List.foldl_cons, List.foldl_nil, List.length_cons,
        List.length_nil, pow_one, Nat.pow_zero, Nat.mul_one]
      omega
    · rename_i h10
      have hlt : n / 10 < fuel := by
        have := Nat.div_lt_self (by omega : 0 < n) (by norm_num : 1 < 10); omega
      simp only [digitsVal, List.foldl_append, List.foldl_cons, List.foldl_nil,
        List.length_append, List.length_cons, List.length_nil]
      rw [show (List.foldl (fun a c => a * 10 + (c - 48)) acc (natDigitsAux fuel (n / 10))) = digitsVal acc (natDigitsAux fuel (n / 10)) from rfl]
      rw [ih hlt]
      have : 48 + n % 10 - 48 = n % 10 := by omega
      rw [this]
      rw [pow_succ]
      have hdm := Nat.div_add_mod n 10
      ring_nf
      omega

theorem parseDigits_all {ds : List Nat} (hds : ∀ c ∈ ds, isDigitU c = true)
    {rest : List Nat} (hrest : notDigitHead rest = true) (acc : Nat) :
    parseDigits (ds ++ rest) acc = (digitsVal acc ds, rest) := by
  induction ds generalizing acc with
  | nil =>
    simp [digitsVal]
    cases rest with
    | nil => rfl
    | cons c r =>
      simp [notDigitHead] at hrest
      simp [parseDigits, hrest]
  | cons c t ih =>
    have hc := hds c (by simp)
    simp only [List.cons_append, parseDigits, hc, if_true]
    rw [show parseDigits (t.append rest) (acc * 10 + (c - 48)) = parseDigits (t ++ rest) (acc * 10 + (c - 48)) from rfl]
    rw [ih (fun x hx => hds x (by simp [hx]))]
    rfl

theorem natDigits_spec (n : Nat) :
    (∀ c ∈ natDigits n, isDigitU c = true) ∧
    (∃ c cs, natDigits n = c :: cs ∧ isDigitU c = true) ∧
    digitsVal 0 (natDigits n) = n := by
  refine ⟨natDigitsAux_all (by omega), natDigitsAux_head (by omega), ?_⟩
  have := @natDigitsAux_val (n + 1) n (by omega) 0
  simpa using this

theorem hexVal_hexDigitUnit {m : Nat} (h : m < 16) : hexVal (hexDigitUnit m) = some m := by
  interval_cases m <;> decide

theorem parseStringBody_quote (r : List Nat) : parseStringBody (34 :: r) = some ([], r) := by
  rw [parseStringBody.eq_def]; rfl

theorem parseStringBody_escBody (s : JStr) (rest : List Nat) :
    parseStringBody (escBody s ++ 34 :: rest) = some (s, rest) := by
  induction s with
  | nil => simpa [escBody] using parseStringBody_quote rest
  | cons c t ih =>
    show parseStringBody ((escapeUnit c ++ escBody t) ++ 34 :: rest) = _
    rw [List.append_assoc]
    by_cases h34 : c = 34
    · subst h34
      rw [show escapeUnit 34 = [92, 34] from rfl, List.cons_append, List.cons_append,
        List.nil_append, parseStringBody.eq_def]
      simp [unescapeUnit, ih]
    · by_cases h92 : c = 92
      · subst h92
        rw [show escapeUnit 92 = [92, 92] from rfl, List.cons_append, List.cons_append,
          List.nil_append, parseStringBody.eq_def]
        simp [unescapeUnit, ih]
      · by_cases h8 : c = 8
        · subst h8
          rw [show escapeUnit 8 = [92, 98] from rfl, List.cons_append, List.cons_append,
            List.nil_append, parseStringBody.eq_def]
          simp [unescapeUnit, ih]
        · by_cases h9 : c = 9
          · subst h9
            rw [show escapeUnit 9 = [92, 116] from rfl, List.cons_append, List.cons_append,
              List.nil_append, parseStringBody.eq_def]
            simp [unescapeUnit, ih]
          · by_cases h10 : c = 10
            · subst h10
              rw [show escapeUnit 10 = [92, 110] from rfl, List.cons_append, List.cons_append,
                List.nil_append, parseStringBody.eq_def]
              simp [unescapeUnit, ih]
            · by_cases h12 : c = 12
              · subst h12
                rw [show escapeUnit 12 = [92, 102] from rfl, List.cons_append, List.cons_append,
                  List.nil_append, parseStringBody.eq_def]
                simp [unescapeUnit, ih]
              · by_cases h13 : c = 13
                · subst h13
                  rw [show escapeUnit 13 = [92, 114] from rfl, List.cons_append, List.cons_append,
                    List.nil_append, parseStringBody.eq_def]
                  simp [unescapeUnit, ih]
                · by_cases hlt : c < 32
                  · have hu : escapeUnit c = [92, 117, 48, 48, hexDigitUnit (c / 16), hexDigitUnit (c % 16)] := by
                      unfold escapeUnit
                      simp [h34, h92, h8, h9, h10, h12, h13, hlt]
                    have h1 : hexVal (hexDigitUnit (c / 16)) = some (c / 16) :=
                      hexVal_hexDigitUnit (by omega)
                    have h2 : hexVal (hexDigitUnit (c % 16)) = some (c % 16) :=
                      hexVal_hexDigitUnit (by omega)
                    rw [hu]
                    simp only [List.cons_append, List.nil_append]
                    rw [parseStringBody.eq_def]
                    simp only [h1, h2]
                    simp [ih, show hexVal 48 = some 0 from rfl]
                    omega
                  · have hu : escapeUnit c = [c] := by
                      unfold escapeUnit
                      simp [h34, h92, h8, h9, h10, h12, h13, hlt]
                    rw [hu]
                    simp only [List.cons_append, List.nil_append]
                    rw [parseStringBody.eq_def]
                    simp [h34, h92, show 32 ≤ c from by omega, ih]

theorem skipWs_cons {c : Nat} (h : isWsU c = false) (l : List Nat) :
    skipWs (c :: l) = c :: l := by
  simp [skipWs, h]

theorem isDigitU_iff {c : Nat} : isDigitU c = true ↔ 48 ≤ c ∧ c ≤ 57 := by
  simp [isDigitU]

theorem sizeJ_pos (j : Json) : 1 ≤ sizeJ j := by
  cases j <;> simp [sizeJ]

theorem sizeL_pos {xs : JsonList} (h : xs ≠ .nil) : 1 ≤ sizeL xs := by
  cases xs with
  | nil => exact absurd rfl h
  | cons x t => simp [sizeL]; omega

theorem sizeF_pos {kvs : JsonFields} (h : kvs ≠ .nil) : 1 ≤ sizeF kvs := by
  cases kvs with
  | nil => exact absurd rfl h
  | cons k v t => simp [sizeF]; omega

theorem natDigits_head (m : Nat) :
    ∃ c cs, natDigits m = c :: cs ∧ isDigitU c = true :=
  natDigitsAux_head (by omega)

theorem renderJson_head (j : Json) :
    ∃ c cs, renderJson j = c :: cs ∧ isWsU c = false ∧ c ≠ 93 ∧ c ≠ 125 := by
  cases j with
  | null => exact ⟨110, _, rfl, by decide, by decide, by decide⟩
  | bool b =>
    cases b
    · exact ⟨102, _, rfl, by decide, by decide, by decide⟩
    · exact ⟨116, _, rfl, by decide, by decide, by decide⟩
  | num n =>
    cases n with
    | ofNat m =>
      obtain ⟨c, cs, hc, hd⟩ := natDigits_head m
      rw [isDigitU_iff] at hd
      refine ⟨c, cs, ?_, ?_, by omega, by omega⟩
      · simpa [renderJson, renderInt] using hc
      · simp [isWsU]; omega
    | negSucc m => exact ⟨45, _, rfl, by decide, by decide, by decide⟩
  | str s => exact ⟨34, _, rfl, by decide, by decide, by decide⟩
  | arr xs => exact ⟨91, _, rfl, by decide, by decide, by decide⟩
  | obj kvs => exact ⟨123, _, rfl, by decide, by decide, by decide⟩

mutual
theorem sizeJ_le_render (j : Json) : sizeJ j ≤ (renderJson j).length := by
  cases j with
  | null => simp [sizeJ, renderJson]
  | bool b => cases b <;> simp [sizeJ, renderJson]
  | num n =>
    cases n with
    | ofNat m =>
      obtain ⟨c, cs, hc, _⟩ := natDigits_head m
      simp [sizeJ, renderJson, renderInt, hc]
    | negSucc m => simp [sizeJ, renderJson, renderInt]
  | str s => simp [sizeJ, renderJson, renderStr]
  | arr xs =>
    have := sizeL_le_render xs
    simp [sizeJ, renderJson]
    omega
  | obj kvs =>
    have := sizeF_le_render kvs
    simp [sizeJ, renderJson]
    omega

theorem sizeL_le_render (xs : JsonList) : sizeL xs ≤ (renderElems xs).length + 1 := by
  cases xs with
  | nil => simp [sizeL]
  | cons x t =>
    have hx := sizeJ_le_render x
    cases t with
    | nil => simp [sizeL, renderElems]; omega
    | cons y t2 =>
      have ht := sizeL_le_render (.cons y t2)
      simp [sizeL, renderElems]
      simp [sizeL] at ht
      omega

theorem sizeF_le_render (kvs : JsonFields) : sizeF kvs ≤ (renderFields kvs).length + 1 := by
  cases kvs with
  | nil => simp [sizeF]
  | cons k v t =>
    have hv := sizeJ_le_render v
    cases t with
    | nil => simp [sizeF, renderFields, renderStr]; omega
    | cons k2 v2 t2 =>
      have ht := sizeF_le_render (.cons k2 v2 t2)
      simp [sizeF, renderFields, renderStr]
      simp [sizeF] at ht
      omega
end

theorem notDigitHead_cons {c : Nat} {l : List Nat} (h : isDigitU c = false) :
    notDigitHead (c :: l) = true := by
  simp [notDigitHead, h]

theorem parseNumber_natDigits (m : Nat) {rest : List Nat} (hrest : notDigitHead rest = true) :
    parseNumber (natDigits m ++ rest) = some ((m : Int), rest) := by
  obtain ⟨c, cs, hc, hd⟩ := natDigits_head m
  have hb := isDigitU_iff.mp hd
  have hds := parseDigits_all (natDigits_spec m).1 hrest 0
  rw [(natDigits_spec m).2.2] at hds
  rw [hc] at hds ⊢
  rw [List.cons_append] at hds ⊢
  rw [parseNumber.eq_def]
  simp only [if_neg (show ¬c = 45 by omega), hd, if_true, hds]

theorem parseNumber_negSucc (m : Nat) {rest : List Nat} (hrest : notDigitHead rest = true) :
    parseNumber ((45 :: natDigits (m + 1)) ++ rest) = some (Int.negSucc m, rest) := by
  obtain ⟨c, cs, hc, hd⟩ := natDigits_head (m + 1)
  have hds := parseDigits_all (natDigits_spec (m + 1)).1 hrest 0
  rw [(natDigits_spec (m + 1)).2.2] at hds
  rw [List.cons_append, parseNumber.eq_def]
  simp only [if_pos rfl]
  rw [hc, List.cons_append]
  rw [hc, List.cons_append] at hds
  simp only [hd, if_true, hds]
  rw [show -((↑(m + 1) : Int)) = Int.negSucc m by rw [Int.negSucc_eq]; push_cast; ring]

theorem parse_render_all (fuel : Nat) :
    (∀ j rest, sizeJ j ≤ fuel → notDigitHead rest = true →
      parseVal fuel (renderJson j ++ rest) = some (j, rest)) ∧
    (∀ xs rest, xs ≠ .nil → sizeL xs ≤ fuel →
      parseArrItems fuel (renderElems xs ++ 93 :: rest) = some (xs, rest)) ∧
    (∀ kvs rest, kvs ≠ .nil → sizeF kvs ≤ fuel →
      parseObjItems fuel (renderFields kvs ++ 125 :: rest) = some (kvs, rest)) := by
  induction fuel with
  | zero =>
    refine ⟨fun j rest hsz _ => absurd hsz (by have := sizeJ_pos j; omega),
            fun xs rest hne hsz => absurd hsz (by have := sizeL_pos hne; omega),
            fun kvs rest hne hsz => absurd hsz (by have := sizeF_pos hne; omega)⟩
  | succ fuel ih =>
    obtain ⟨ihP, ihQ, ihR⟩ := ih
    refine ⟨?_, ?_, ?_⟩
    · intro j rest hsz hrest
      cases j with
      | null =>
        show parseVal (fuel+1) (110 :: 117 :: 108 :: 108 :: rest) = _
        rw [parseVal.eq_def]
        simp [parseValBody, skipWs_cons, isWsU]
      | bool b =>
        cases b
        · show parseVal (fuel+1) (102 :: 97 :: 108 :: 115 :: 101 :: rest) = _
          rw [parseVal.eq_def]
          simp [parseValBody, skipWs_cons, isWsU]
        · show parseVal (fuel+1) (116 :: 114 :: 117 :: 101 :: rest) = _
          rw [parseVal.eq_def]
          simp [parseValBody, skipWs_cons, isWsU]
      | num n =>
        cases n with
        | ofNat m =>
          obtain ⟨c, cs, hc, hd⟩ := natDigits_head m
          have hb := isDigitU_iff.mp hd
          have h : renderJson (.num (Int.ofNat m)) ++ rest = c :: (cs ++ rest) := by
            show natDigits m ++ rest = _
            rw [hc]; rfl
          rw [h, parseVal.eq_def]
          have hws : isWsU c = false := by simp [isWsU]; omega
          simp only [parseValBody, skipWs_cons hws]
          simp only [if_neg (show ¬c = 110 by omega), if_neg (show ¬c = 116 by omega),
            if_neg (show ¬c = 102 by omega), if_neg (show ¬c = 34 by omega),
            if_neg (show ¬c = 91 by omega), if_neg (show ¬c = 123 by omega)]
          rw [show c :: (cs ++ rest) = natDigits m ++ rest by rw [hc]; rfl]
          rw [parseNumber_natDigits m hrest]
          rfl
        | negSucc m =>
          have h : renderJson (.num (Int.negSucc m)) ++ rest = 45 :: (natDigits (m+1) ++ rest) := by
            show (45 :: natDigits (m+1)) ++ rest = _
            rfl
          rw [h, parseVal.eq_def]
          simp only [parseValBody, skipWs_cons (show isWsU 45 = false by decide)]
          simp only [if_neg (show ¬(45:Nat) = 110 by decide), if_neg (show ¬(45:Nat) = 116 by decide),
            if_neg (show ¬(45:Nat) = 102 by decide), if_neg (show ¬(45:Nat) = 34 by decide),
            if_neg (show ¬(45:Nat) = 91 by decide), if_neg (show ¬(45:Nat) = 123 by decide)]
          rw [show 45 :: (natDigits (m+1) ++ rest) = (45 :: natDigits (m+1)) ++ rest from rfl]
          rw [parseNumber_negSucc m hrest]
          rfl
      | str s =>
        have h : renderJson (.str s) ++ rest = 34 :: (escBody s ++ 34 :: rest) := by
          show (34 :: escBody s ++ [34]) ++ rest = _
          simp
        rw [h, parseVal.eq_def]
        simp [parseValBody, skipWs_cons, isWsU, parseStringBody_escBody s rest]
      | arr xs =>
        cases xs with
        | nil =>
          show parseVal (fuel+1) (91 :: 93 :: rest) = _
          rw [parseVal.eq_def]
          simp [parseValBody, skipWs_cons, isWsU]
        | cons x t =>
          obtain ⟨c0, cs0, h0, hw0, h93, _⟩ := renderJson_head x
          obtain ⟨ss, hss⟩ : ∃ ss, renderElems (.cons x t) = renderJson x ++ ss := by
            cases t
            · exact ⟨[], by simp [renderElems]⟩
            · exact ⟨44 :: renderElems _, rfl⟩
          have h : renderJson (.arr (.cons x t)) ++ rest
              = 91 :: (renderElems (.cons x t) ++ 93 :: rest) := by
            show (91 :: renderElems (.cons x t) ++ [93]) ++ rest = _
            simp
          have h2 : renderElems (.cons x t) ++ 93 :: rest = c0 :: (cs0 ++ (ss ++ 93 :: rest)) := by
            rw [hss, h0]; simp
          have hQ := ihQ (.cons x t) rest (by simp) (by simp [sizeJ] at hsz; omega)
          rw [h, parseVal.eq_def]
          simp only [parseValBody, skipWs_cons (show isWsU 91 = false by decide)]
          simp only [if_neg (show ¬(91:Nat) = 110 by decide), if_neg (show ¬(91:Nat) = 116 by decide),
            if_neg (show ¬(91:Nat) = 102 by decide), if_neg (show ¬(91:Nat) = 34 by decide),
            if_pos (rfl : (91:Nat) = 91)]
          rw [h2, skipWs_cons hw0]
          simp only [if_neg h93]
          rw [← h2, hQ]
          rfl
      | obj kvs =>
        cases kvs with
        | nil =>
          show parseVal (fuel+1) (123 :: 125 :: rest) = _
          rw [parseVal.eq_def]
          simp [parseValBody, skipWs_cons, isWsU]
        | cons k v t =>
          have h : renderJson (.obj (.cons k v t)) ++ rest
              = 123 :: (renderFields (.cons k v t) ++ 125 :: rest) := by
            show (123 :: renderFields (.cons k v t) ++ [125]) ++ rest = _
            simp
          obtain ⟨ss, hss⟩ : ∃ ss, renderFields (.cons k v t)
              = 34 :: (escBody k ++ 34 :: ss) := by
            cases t with
            | nil =>
              refine ⟨58 :: renderJson v, ?_⟩
              show renderStr k ++ 58 :: renderJson v = _
              simp [renderStr]
            | cons k2 v2 t2 =>
              refine ⟨58 :: renderJson v ++ 44 :: renderFields (.cons k2 v2 t2), ?_⟩
              show renderStr k ++ 58 :: renderJson v ++ 44 :: renderFields (.cons k2 v2 t2) = _
              simp [renderStr]
          have h2 : renderFields (.cons k v t) ++ 125 :: rest
              = 34 :: ((escBody k ++ 34 :: ss) ++ 125 :: rest) := by
            rw [hss]; rfl
          have hR := ihR (.cons k v t) rest (by simp) (by simp [sizeJ] at hsz; omega)
          rw [h, parseVal.eq_def]
          simp only [parseValBody, skipWs_cons (show isWsU 123 = false by decide)]
          simp only [if_neg (show ¬(123:Nat) = 110 by decide), if_neg (show ¬(123:Nat) = 116 by decide),
            if_neg (show ¬(123:Nat) = 102 by decide), if_neg (show ¬(123:Nat) = 34 by decide),
            if_neg (show ¬(123:Nat) = 91 by decide), if_pos (rfl : (123:Nat) = 123)]
          rw [h2, skipWs_cons (show isWsU 34 = false by decide)]
          simp only [if_neg (show ¬(34:Nat) = 125 by decide)]
          rw [← h2, hR]
          rfl
    · intro xs rest hne hsz
      cases xs with
      | nil => exact absurd rfl hne
      | cons x t =>
        rw [parseArrItems.eq_def]
        simp only [parseArrBody]
        cases t with
        | nil =>
          have hP := ihP x (93 :: rest) (by simp [sizeL] at hsz; omega)
            (notDigitHead_cons (by decide))
          simp only [renderElems]
          rw [hP]
          simp [skipWs_cons, isWsU]
        | cons y t2 =>
          have hsx : sizeJ x ≤ fuel := by simp [sizeL] at hsz; omega
          have h : renderElems (.cons x (.cons y t2)) ++ 93 :: rest
              = renderJson x ++ (44 :: (renderElems (.cons y t2) ++ 93 :: rest)) := by
            show (renderJson x ++ 44 :: renderElems (.cons y t2)) ++ 93 :: rest = _
            simp
          have hP := ihP x (44 :: (renderElems (.cons y t2) ++ 93 :: rest)) hsx
            (notDigitHead_cons (by decide))
          have hQ := ihQ (.cons y t2) rest (by simp) (by simp [sizeL] at hsz ⊢; omega)
          rw [h, hP]
          simp [skipWs_cons, isWsU, hQ]
    · intro kvs rest hne hsz
      cases kvs with
      | nil => exact absurd rfl hne
      | cons k v t =>
        rw [parseObjItems.eq_def]
        simp only [parseObjBody]
        have hsv : sizeJ v ≤ fuel := by simp [sizeF] at hsz; omega
        cases t with
        | nil =>
          have h : renderFields (.cons k v .nil) ++ 125 :: rest
              = 34 :: (escBody k ++ 34 :: (58 :: (renderJson v ++ 125 :: rest))) := by
            show (renderStr k ++ 58 :: renderJson v) ++ 125 :: rest = _
            simp [renderStr]
          have hP := ihP v (125 :: rest) hsv (notDigitHead_cons (by decide))
          rw [h]
          simp [skipWs_cons, isWsU, parseStringBody_escBody, hP]
        | cons k2 v2 t2 =>
          have h : renderFields (.cons k v (.cons k2 v2 t2)) ++ 125 :: rest
              = 34 :: (escBody k ++ 34 :: (58 :: (renderJson v
                ++ 44 :: (renderFields (.cons k2 v2 t2) ++ 125 :: rest)))) := by
            show (renderStr k ++ 58 :: renderJson v ++ 44 :: renderFields (.cons k2 v2 t2)) ++ 125 :: rest = _
            simp [renderStr]
          have hP := ihP v (44 :: (renderFields (.cons k2 v2 t2) ++ 125 :: rest)) hsv
            (notDigitHead_cons (by decide))
          have hR := ihR (.cons k2 v2 t2) rest (by simp) (by simp [sizeF] at hsz ⊢; omega)
          rw [h]
          simp [skipWs_cons, isWsU, parseStringBody_escBody, hP, hR]

theorem parseJson_renderJson (j : Json) : parseJson (renderJson j) = some j := by
  have hfuel : sizeJ j ≤ (renderJson j).length + 1 :=
    le_trans (sizeJ_le_render j) (by omega)
  have h := (parse_render_all ((renderJson j).length + 1)).1 j [] hfuel (by rfl)
  rw [List.append_nil] at h
  rw [parseJson, h]
  rfl

theorem jsonToPacket_packetToJson (p : Packet) :
    jsonToPacket (packetToJson p) = some p := by
  obtain ⟨ack, payload⟩ := p
  cases ack <;> cases payload <;> rfl

theorem decodeJsonMode_encodeJsonMode (p : Packet) :
    decodeJsonMode (encodeJsonMode p) = some p := by
  unfold decodeJsonMode encodeJsonMode stringifyPacket
  rw [parseJson_renderJson]
  exact jsonToPacket_packetToJson p

theorem map_mod256_id {l : List Nat} (h : ∀ c ∈ l, c < 256) :
    l.map (fun c => c % 256) = l := by
  induction l with
  | nil => rfl
  | cons c t ih =>
    have hc : c < 256 := h c (by simp)
    simp only [List.map_cons, Nat.mod_eq_of_lt hc]
    rw [ih (fun x hx => h x (by simp [hx]))]

theorem decodeBinaryMode_encodeBinaryMode (p : Packet)
    (h : (stringifyPacket p).all (fun c => c < 256) = true) :
    decodeBinaryMode (encodeBinaryMode p) = some p := by
  unfold decodeBinaryMode encodeBinaryMode
  rw [List.all_eq_true] at h
  rw [map_mod256_id (fun c hc => by simpa using h c hc)]
  rw [show stringifyPacket p = renderJson (packetToJson p) from rfl, parseJson_renderJson]
  exact jsonToPacket_packetToJson p

theorem ackInv_init : AckInv initClient := by
  constructor <;> simp [initClient, settledCount]

theorem ackInv_expectResponse {s : ClientState} (h : AckInv s) :
    AckInv (expectResponse s) := by
  obtain ⟨fns, lt, nodup, settledLt, freshKeys, atMostOnce⟩ := h
  constructor
  · intro p hp
    simp [expectResponse, emitterOnce] at hp
    rcases hp with hp | hp
    · exact fns p hp
    · simp [hp]
  · intro p hp
    simp [expectResponse, emitterOnce] at hp
    rcases hp with hp | hp
    · have := lt p hp; simp [expectResponse, emitterOnce]; omega
    · simp [expectResponse, emitterOnce, hp]
  · simp [expectResponse, emitterOnce]
    rw [List.nodup_append]
    refine ⟨nodup, by simp, ?_⟩
    intro a ha
    simp at ha ⊢
    obtain ⟨fn, hfn⟩ := ha
    have := lt (a, fn) hfn
    omega
  · intro q hq
    simp [expectResponse, emitterOnce] at hq
    have := settledLt q hq
    simp [expectResponse, emitterOnce]
    omega
  · intro p hp
    simp [expectResponse, emitterOnce] at hp
    simp only [settledCount, expectResponse, emitterOnce]
    rcases hp with hp | hp
    · exact freshKeys p hp
    · -- new listener id = s.ack; no settlement has that key since all < s.ack
      simp only [settledCount] at *
      rw [List.length_eq_zero]
      rw [List.filter_eq_nil_iff]
      intro q hq
      have := settledLt q hq
      simp [hp]
      omega
  · intro i
    exact atMostOnce i

theorem natCast_beq_iff {a b : Nat} : (((a : Int) == (b : Int)) = true) ↔ a = b := by
  simp

theorem emitAck_of_no_listener {s : ClientState} {id : Int} {data : Json}
    (h : ∀ p ∈ s.listeners, ¬((p.1 : Int) = id)) :
    emitAck id data s = s := by
  unfold emitAck
  have hm : s.listeners.filter (fun p => ((p.1 : Int) == id)) = [] := by
    rw [List.filter_eq_nil_iff]
    intro p hp
    simp [h p hp]
  have hk : s.listeners.filter (fun p => !((p.1 : Int) == id)) = s.listeners := by
    rw [List.filter_eq_self]
    intro p hp
    simp [h p hp]
  rw [hm, hk]
  rfl

theorem filter_key_singleton {l : List (Nat × AckFn)} {n : Nat}
    (hmem : (n, AckFn.ackHandler n) ∈ l)
    (hnodup : (l.map Prod.fst).Nodup) :
    l.filter (fun p => ((p.1 : Int) == (n : Int))) = [(n, AckFn.ackHandler n)] := by
  induction l with
  | nil => simp at hmem
  | cons q t ih =>
    simp only [List.map_cons, List.nodup_cons] at hnodup
    rcases List.mem_cons.mp hmem with hq | ht
    · subst hq
      simp only [List.filter_cons]
      rw [if_pos (by simp)]
      congr 1
      rw [List.filter_eq_nil_iff]
      intro p hp
      have hne : p.1 ≠ n := by
        intro hpn
        have hmm : p.1 ∈ t.map Prod.fst := List.mem_map_of_mem Prod.fst hp
        rw [hpn] at hmm
        exact hnodup.1 hmm
      simp [hne]
    · have hq1 : q.1 ≠ n := by
        intro hqn
        have hmm : (n, AckFn.ackHandler n).1 ∈ t.map Prod.fst := List.mem_map_of_mem Prod.fst ht
        simp only at hmm
        rw [← hqn] at hmm
        exact hnodup.1 hmm
      simp only [List.filter_cons]
      rw [if_neg (by simp [hq1])]
      exact ih ht hnodup.2

theorem runAckBody_listeners (n : Nat) (data : Json) (s1 : ClientState) :
    (runAckListenerBody (.ackHandler n) data s1).listeners = s1.listeners ∧
    (runAckListenerBody (.ackHandler n) data s1).ack = s1.ack := by
  show (ackHandlerRun n data s1).listeners = s1.listeners ∧ (ackHandlerRun n data s1).ack = s1.ack
  unfold ackHandlerRun
  split
  · exact ⟨rfl, rfl⟩
  · split <;> exact ⟨rfl, rfl⟩

theorem runAckBody_settled (n : Nat) (data : Json) (s1 : ClientState) :
    (runAckListenerBody (.ackHandler n) data s1).settled = s1.settled ∨
    (∃ x, (runAckListenerBody (.ackHandler n) data s1).settled = s1.settled ++ [(n, x)]) := by
  show (ackHandlerRun n data s1).settled = s1.settled ∨
    (∃ x, (ackHandlerRun n data s1).settled = s1.settled ++ [(n, x)])
  unfold ackHandlerRun
  split
  · left; rfl
  · split
    · right; exact ⟨_, rfl⟩
    · right; exact ⟨_, rfl⟩

theorem settledCount_set_settled (s : ClientState) (l : List (Nat × Settlement)) (i : Nat) :
    settledCount { s with settled := l } i = (l.filter (fun q => q.1 == i)).length := rfl

theorem settledCount_append_one (l : List (Nat × Settlement)) (n : Nat) (x : Settlement) (i : Nat) :
    ((l ++ [(n, x)]).filter (fun q => q.1 == i)).length
      = (l.filter (fun q => q.1 == i)).length + (if n = i then 1 else 0) := by
  rw [List.filter_append]
  simp only [List.length_append]
  congr 1
  by_cases h : n = i <;> simp [h]

theorem ackInv_emitAck {s : ClientState} {id : Int} {data : Json} (h : AckInv s) :
    AckInv (emitAck id data s) := by
  by_cases hex : ∃ p ∈ s.listeners, ((p.1 : Int) = id)
  · obtain ⟨p, hp, hpid⟩ := hex
    have hfn := h.fns p hp
    obtain ⟨n, fn⟩ := p
    simp only at hfn
    subst hfn
    subst hpid
    have hmat := filter_key_singleton hp h.nodup
    unfold emitAck
    rw [hmat]
    simp only [List.foldl_cons, List.foldl_nil]
    set s1 : ClientState := { s with listeners := s.listeners.filter (fun p => !((p.1 : Int) == ((n : Nat) : Int))) } with hs1
    have hsub : s1.listeners.Sublist s.listeners := List.filter_sublist _
    have hamem : ∀ p ∈ s1.listeners, p ∈ s.listeners ∧ p.1 ≠ n := by
      intro p hps1
      rw [hs1] at hps1
      simp only [List.mem_filter] at hps1
      refine ⟨hps1.1, ?_⟩
      intro hpn
      have := hps1.2
      simp [hpn] at this
    have hbl := runAckBody_listeners n data s1
    have hbs := runAckBody_settled n data s1
    have hnlt : n < s.ack := h.lt (n, .ackHandler n) hp
    have hcount0 : settledCount s n = 0 := h.freshKeys (n, .ackHandler n) hp
    constructor
    · intro p hpr
      rw [hbl.1] at hpr
      exact h.fns p (hamem p hpr).1
    · intro p hpr
      rw [hbl.1] at hpr
      rw [hbl.2]
      exact h.lt p (hamem p hpr).1
    · rw [hbl.1]
      exact ((hsub.map Prod.fst).nodup h.nodup)
    · intro q hq
      rw [hbl.2]
      rcases hbs with hset | ⟨x, hset⟩
      · rw [hset] at hq
        exact h.settledLt q hq
      · rw [hset] at hq
        rcases List.mem_append.mp hq with h1 | h2
        · exact h.settledLt q h1
        · simp at h2
          simp [h2]
          exact hnlt
    · intro p hpr
      rw [hbl.1] at hpr
      obtain ⟨hpmem, hpne⟩ := hamem p hpr
      have h0 := h.freshKeys p hpmem
      simp only [settledCount] at h0 ⊢
      rcases hbs with hset | ⟨x, hset⟩
      · rw [hset]
        exact h0
      · rw [hset, settledCount_append_one]
        rw [if_neg (by omega)]
        simpa using h0
    · intro i
      have hi := h.atMostOnce i
      simp only [settledCount] at hi ⊢
      rcases hbs with hset | ⟨x, hset⟩
      · rw [hset]; exact hi
      · rw [hset, settledCount_append_one]
        rw [show s1.settled = s.settled from rfl]
        by_cases hni : n = i
        · subst hni
          simp only [settledCount] at hcount0
          rw [hcount0]
          simp
        · rw [if_neg hni]
          omega
  · push_neg at hex
    rw [emitAck_of_no_listener hex]
    exact h

theorem ackInv_timeoutFire {s : ClientState} {id : Nat} (h : AckInv s) :
    AckInv (responseTimeoutFire id s) := by
  obtain ⟨fns, lt, nodup, settledLt, freshKeys, atMostOnce⟩ := h
  have hmem : ∀ p ∈ (responseTimeoutFire id s).listeners, p ∈ s.listeners := by
    intro p hp
    simp only [responseTimeoutFire, emitterRemoveListener, List.mem_filter] at hp
    exact hp.1
  constructor
  · exact fun p hp => fns p (hmem p hp)
  · exact fun p hp => lt p (hmem p hp)
  · exact ((List.filter_sublist _).map Prod.fst).nodup nodup
  · exact settledLt
  · exact fun p hp => freshKeys p (hmem p hp)
  · exact atMostOnce

theorem ackInv_step {s : ClientState} (h : AckInv s) (op : AckOp) : AckInv (ackStep s op) := by
  cases op with
  | newCall => exact ackInv_expectResponse h
  | response id data => exact ackInv_emitAck h
  | timerFires id =>
    simp only [ackStep]
    split
    · exact ackInv_timeoutFire h
    · exact h

theorem ackInv_foldl (ops : List AckOp) : ∀ s : ClientState, AckInv s → AckInv (ops.foldl ackStep s) := by
  induction ops with
  | nil => exact fun s h => h
  | cons op t ih => exact fun s h => ih (ackStep s op) (ackInv_step h op)

theorem ackInv_run (ops : List AckOp) : AckInv (runAckOps ops) :=
  ackInv_foldl ops initClient ackInv_init

/-- C1: the claim says that when the response timer of a correlated call
fires, the promise rejects with ResponseTimeout and no residual per-ack
resource remains.  The code disagrees: the timer callback passes a freshly
created arrow function to Emitter.removeListener, which therefore removes
nothing and never invokes the reject; after the timer fires the promise has
not settled at all and the once-listener for the ack event is still
registered.  Moreover the timer duration is responseTimeout | 30000 with a
bitwise or, which distorts configured values such as 45000.  This theorem
evaluates the code at the failing input: one correlated call on a fresh
client, timer for ack id 0 fires, no RESPONSE ever arrives. -/
theorem c1_timeout_never_rejects_and_leaves_listener :
    (responseTimeoutFire 0 c1State).settled = [] ∧
    (responseTimeoutFire 0 c1State).listeners = [(0, .ackHandler 0)] ∧
    (responseTimeoutFire 0 c1State).timers = [] ∧
    effectiveResponseTimeout 30000 = 30000 ∧
    effectiveResponseTimeout 45000 = 65528 := by
  decide

/-- C2: at most one settlement ever occurs per issued ack id, over every
sequence of correlated calls, inbound RESPONSE packets (including
duplicated ids) and timer firings; and a RESPONSE for an id with no
pending listener leaves the state unchanged. -/
theorem c2_at_most_one_settlement :
    (∀ (ops : List AckOp) (i : Nat), settledCount (runAckOps ops) i ≤ 1) ∧
    (∀ (s : ClientState) (id : Int) (data : Json),
      (∀ p ∈ s.listeners, ¬((p.1 : Int) = id)) → emitAck id data s = s) :=
  ⟨fun ops i => (ackInv_run ops).atMostOnce i,
   fun _ _ _ h => emitAck_of_no_listener h⟩

/-- Witness for C2 at a duplicate RESPONSE trace and at a RESPONSE with no
pending entry. -/
theorem c2_witness :
    settledCount (runAckOps
      [.newCall, .response 0 (.obj .nil), .response 0 (.obj .nil)]) 0 ≤ 1 ∧
    ((∀ p ∈ initClient.listeners, ¬((p.1 : Int) = 5)) ∧
      emitAck 5 (.obj .nil) initClient = initClient) :=
  ⟨c2_at_most_one_settlement.1 [.newCall, .response 0 (.obj .nil), .response 0 (.obj .nil)] 0,
   by decide,
   c2_at_most_one_settlement.2 initClient 5 (.obj .nil) (by decide)⟩

/-- C3 counterexample: the claim asserts the round-trip law for the Binary
mode on every valid packet, but the byte conversion stores each UTF-16
code unit of the serialized text mod 256 (Uint8Array truncation), so a
packet whose event name is the single code unit 8364 does not survive the
Binary round trip. -/
theorem c3_binary_truncation_counterexample :
    decodeBinaryMode (encodeBinaryMode pEuro) ≠ some pEuro := by
  decide

/-- C3 amended: decode after encode is the identity on every packet under
the JSON mode, and under the Binary mode exactly on the premise that every
UTF-16 code unit of the serialized packet text is below 256 (in particular
on all ASCII content). -/
theorem c3_roundtrip_amended (p : Packet) :
    decodeJsonMode (encodeJsonMode p) = some p ∧
    ((stringifyPacket p).all (fun c => c < 256) = true →
      decodeBinaryMode (encodeBinaryMode p) = some p) :=
  ⟨decodeJsonMode_encodeJsonMode p, fun h => decodeBinaryMode_encodeBinaryMode p h⟩

/-- Witness for C3 on the spec scenario packet, whose serialization is all
ASCII. -/
theorem c3_witness :
    (stringifyPacket pAscii).all (fun c => c < 256) = true ∧
    decodeJsonMode (encodeJsonMode pAscii) = some pAscii ∧
    decodeBinaryMode (encodeBinaryMode pAscii) = some pAscii :=
  ⟨by decide, (c3_roundtrip_amended pAscii).1, (c3_roundtrip_amended pAscii).2 (by decide)⟩

/-- C4 counterexample: the claim says a RESPONSE whose data carries an
error field E makes the call reject with a ClientError wrapping E.  The
once-handler in ExpectResponse instead rejects with the raw field value:
reject(data[error]).  At E the string boom, the recorded settlement is the
raw rejection, which differs from the ClientError-wrapped one; and a
RESPONSE whose whole data is null settles nothing at all, because
data.hasOwnProperty then throws before resolve can run. -/
theorem c4_raw_rejection_counterexample :
    (emitAck 0 c4Data c1State).settled = [(0, .rejectedWith (.str (jstr "boom")))] ∧
    Settlement.rejectedWith (.str (jstr "boom"))
      ≠ .rejectedWith (clientErrorWrap (.str (jstr "boom"))) ∧
    (emitAck 0 Json.null c1State).settled = [] := by
  decide

/-- C4 amended: when a RESPONSE settles a correlated call, a data value
owning an error field rejects the promise with the raw value of that field
(no ClientError wrapper); a non-null data value without an error field
resolves the promise with that data; a null data value settles nothing
(the own-property test throws and the exception is logged upstream). -/
theorem c4_settlement_amended (i : Nat) (data : Json) (s : ClientState) :
    (hasOwnError data = true →
      (ackHandlerRun i data s).settled = s.settled ++ [(i, .rejectedWith (getError data))]) ∧
    (data ≠ .null → hasOwnError data = false →
      (ackHandlerRun i data s).settled = s.settled ++ [(i, .resolvedWith data)]) ∧
    (data = .null → (ackHandlerRun i data s).settled = s.settled) := by
  refine ⟨?_, ?_, ?_⟩
  · intro h
    have hnn : ¬(data = .null) := by
      intro hd
      rw [hd] at h
      simp [hasOwnError] at h
    unfold ackHandlerRun
    rw [if_neg hnn, if_pos h]
  · intro hnn h
    unfold ackHandlerRun
    rw [if_neg hnn, if_neg (by simp [h])]
  · intro hd
    unfold ackHandlerRun
    rw [if_pos hd]

/-- Witness for C4 amended at concrete inputs in each arm. -/
theorem c4_witness :
    (hasOwnError c4Data = true ∧
      (ackHandlerRun 0 c4Data initClient).settled
        = initClient.settled ++ [(0, .rejectedWith (getError c4Data))]) ∧
    ((Json.bool true) ≠ .null ∧ hasOwnError (.bool true) = false ∧
      (ackHandlerRun 0 (.bool true) initClient).settled
        = initClient.settled ++ [(0, .resolvedWith (.bool true))]) ∧
    (ackHandlerRun 0 .null initClient).settled = initClient.settled :=
  ⟨⟨by decide, (c4_settlement_amended 0 c4Data initClient).1 (by decide)⟩,
   ⟨by decide, by decide,
    (c4_settlement_amended 0 (.bool true) initClient).2.1 (by decide) (by decide)⟩,
   (c4_settlement_amended 0 .null initClient).2.2 rfl⟩

/-- C5 counterexample: with retries 3 and every attempt failing, the code
performs four reconnect attempts, because the scheduling guard is
retries greater-or-equal attempt counter and the counter is incremented
only when the timer fires; and the single disconnected event is emitted at
the first unexpected close, before any reconnect attempt, since the
counter is still zero there.  This contradicts at most three attempts and
disconnected only after the third failed attempt. -/
theorem c5_reconnect_counterexample :
    ¬(countReconnects c5Final ≤ 3) ∧
    c5Final.events = [.connected, .disconnected [], .reconnectAttempt 1,
      .reconnectAttempt 2, .reconnectAttempt 3, .reconnectAttempt 4] := by
  decide

/-- C5 amended: after an unexpected close with reconnect retries 3 and all
attempts failing, exactly four reconnect attempts occur; the disconnected
event fires exactly once, immediately at the first unexpected close and
before any reconnect attempt, and never again after the final failed
attempt; and every scheduled delay, computed as
random times (interval minus interval over two) plus interval over two,
lies within the closed interval from interval over two to interval for
every random sample in the unit interval and positive interval. -/
theorem c5_reconnect_amended :
    (countReconnects c5Final = 4 ∧ countDisconnected c5Final = 1 ∧
     c5Final.events = [.connected, .disconnected [], .reconnectAttempt 1,
       .reconnectAttempt 2, .reconnectAttempt 3, .reconnectAttempt 4]) ∧
    (∀ r interval : Rat, 0 ≤ r → r < 1 → 0 < interval →
      interval / 2 ≤ reconnectDelay r interval ∧ reconnectDelay r interval ≤ interval) := by
  constructor
  · exact ⟨by decide, by decide, by decide⟩
  · intro r interval h0 h1 hi
    unfold reconnectDelay
    have hhalf : interval - interval / 2 = interval / 2 := by ring
    rw [hhalf]
    have hp : (0 : Rat) ≤ interval / 2 := by linarith
    constructor
    · nlinarith
    · nlinarith

/-- Witness for C5 amended with the random sample zero and interval two. -/
theorem c5_witness :
    ((0 : Rat) ≤ 0 ∧ (0 : Rat) < 1 ∧ (0 : Rat) < 2) ∧
    ((2 : Rat) / 2 ≤ reconnectDelay 0 2 ∧ reconnectDelay 0 2 ≤ 2) :=
  ⟨⟨le_refl 0, one_pos, two_pos⟩,
   c5_reconnect_amended.2 0 2 (le_refl 0) one_pos two_pos⟩

/-- C6: disconnect() is a no-op unless the socket is OPEN, and when it runs
it requests closure with the reserved code 2001; a close event carrying
code 2001 resets the session, emits exactly one disconnected event with
the close reason, and schedules no reconnect (the handler returns before
the reconnect branch, and the full characterization shows the pending
reconnect flag and attempt counter untouched). -/
theorem c6_normal_close (s : ClientState) (cfg : Option ReconnectOpts) (reason : JStr) :
    (s.readyState ≠ .OPEN → disconnect reason s = (s, none)) ∧
    (s.readyState = .OPEN → (disconnect reason s).2 = some (2001, reason)) ∧
    disconnectHandler cfg 2001 reason s
      = { s with readyState := .CLOSED, props := emptyObj, authorized := false,
                 events := s.events ++ [.disconnected reason] } := by
  refine ⟨?_, ?_, ?_⟩
  · intro h
    simp [disconnect, h]
  · intro h
    simp [disconnect, h]
  · simp [disconnectHandler]

/-- Witness for C6: a fresh client is CONNECTING, so disconnect is a no-op
there; after the connection opens, disconnect requests closure with 2001;
and the 2001 close on that state emits exactly one disconnected event. -/
theorem c6_witness :
    (initClient.readyState ≠ .OPEN ∧ disconnect (jstr "bye") initClient = (initClient, none)) ∧
    ((connectionHandler initClient).readyState = .OPEN ∧
      (disconnect (jstr "bye") (connectionHandler initClient)).2 = some (2001, jstr "bye")) ∧
    disconnectHandler none 2001 (jstr "bye") (connectionHandler initClient)
      = { connectionHandler initClient with
          readyState := .CLOSED, props := emptyObj, authorized := false,
          events := (connectionHandler initClient).events ++ [.disconnected (jstr "bye")] } :=
  ⟨⟨by decide, (c6_normal_close initClient none (jstr "bye")).1 (by decide)⟩,
   ⟨by decide, (c6_normal_close (connectionHandler initClient) none (jstr "bye")).2.1 (by decide)⟩,
   (c6_normal_close (connectionHandler initClient) none (jstr "bye")).2.2⟩

/-- C7: the ack field is set exactly on the correlated operations (call,
callEvent, authenticate, deauthenticate), whose packets carry the current
counter value, the same id under which the reply listener and its timer
are registered; the counter then increments, so issued ids strictly
increase; emit and emitEvent carry no ack and leave the state untouched,
creating no correlation entry and arming no timer; and along every
operation sequence the outstanding listener ids are pairwise distinct. -/
theorem c7_ack_iff_correlated (s : ClientState) (name act ev : JStr) (data : Json) :
    ((call name act data s).1.ack = some (s.ack : Int) ∧
      (call name act data s).2 = expectResponse s) ∧
    ((callEvent ev data s).1.ack = some (s.ack : Int) ∧
      (callEvent ev data s).2 = expectResponse s) ∧
    ((authenticate data s).1.ack = some (s.ack : Int) ∧
      (authenticate data s).2 = expectResponse s) ∧
    ((deauthenticate data s).1.ack = some (s.ack : Int) ∧
      (deauthenticate data s).2 = expectResponse s) ∧
    ((emit name act data s).1.ack = none ∧ (emit name act data s).2 = s) ∧
    ((emitEvent ev data s).1.ack = none ∧ (emitEvent ev data s).2 = s) ∧
    ((expectResponse s).listeners = s.listeners ++ [(s.ack, .ackHandler s.ack)] ∧
      (expectResponse s).timers = s.timers ++ [s.ack] ∧
      (expectResponse s).ack = s.ack + 1) ∧
    (∀ ops : List AckOp, ((runAckOps ops).listeners.map Prod.fst).Nodup) :=
  ⟨⟨rfl, rfl⟩, ⟨rfl, rfl⟩, ⟨rfl, rfl⟩, ⟨rfl, rfl⟩, ⟨rfl, rfl⟩, ⟨rfl, rfl⟩,
   ⟨rfl, rfl, rfl⟩, fun ops => (ackInv_run ops).nodup⟩

/-- C8: routing an inbound SYNC packet replaces the session state with
exactly the props and authorized of the payload and changes nothing else:
in particular the emitted-events list is untouched, so no event reaches
application listeners for this packet type. -/
theorem c8_sync_replaces_session (s : ClientState) (ackF : Option Int)
    (props : Json) (au : Bool) :
    handleDecodedPacket { ack := ackF, payload := .sync props au } s
      = { s with props := props, authorized := au } := rfl

/-- C9: the claim says every codec failure, including a rejection of a
caller-supplied custom encode or decode function, is re-signaled as an
EncodeError or DecodeError and reaches the facade logging catch.  The code
disagrees on the custom path: the catch handler constructs the error
without rejecting, so the wrapper promise never settles (none) and nothing
is logged at the boundary; only the built-in parse-failure path really
rejects with a DecodeError and reaches the logging catch.  This theorem
evaluates the code at the failing input, a custom codec whose promise
rejects, and contrasts it with the built-in parse-failure path. -/
theorem c9_custom_rejection_swallowed :
    encodePacketPromise rejectingEncode pAscii = none ∧
    sendFailureLogged rejectingEncode pAscii = false ∧
    decodePacketPromise rejectingEncode (some rejectingDecode) (.text (jstr "nope")) = none ∧
    messageFailureLogged rejectingEncode (some rejectingDecode) (.text (jstr "nope")) = false ∧
    decodePacketPromise .jsonMode none (.text (jstr "nope")) = some (.error .decodeError) ∧
    messageFailureLogged .jsonMode none (.text (jstr "nope")) = true := by
  exact ⟨rfl, rfl, rfl, rfl, rfl, rfl⟩

/-- C10: the error check of a settled correlated call tests own-property
presence with hasOwnProperty, not truthiness: a data object owning an
error key rejects with the value of that key whatever it is (null or
otherwise falsy included, since the value is not inspected), and a data
object without the key resolves with the whole data. -/
theorem c10_own_property_presence (i : Nat) (kvs : JsonFields) (s : ClientState) :
    (fieldsHasKey kvs strError = true →
      (ackHandlerRun i (.obj kvs) s).settled
        = s.settled ++ [(i, .rejectedWith (fieldsGetD kvs strError))]) ∧
    (fieldsHasKey kvs strError = false →
      (ackHandlerRun i (.obj kvs) s).settled
        = s.settled ++ [(i, .resolvedWith (.obj kvs))]) := by
  constructor
  · intro h
    unfold ackHandlerRun
    rw [if_neg (by intro hd; cases hd), if_pos (by simpa [hasOwnError] using h)]
    rfl
  · intro h
    unfold ackHandlerRun
    rw [if_neg (by intro hd; cases hd), if_neg (by simp [hasOwnError, h])]

/-- Witness for C10: an object owning error with the falsy value null still
rejects, carrying null; an object without the key resolves. -/
theorem c10_witness :
    (fieldsHasKey (.cons strError .null .nil) strError = true ∧
      (ackHandlerRun 0 (.obj (.cons strError .null .nil)) initClient).settled
        = initClient.settled ++ [(0, .rejectedWith (fieldsGetD (.cons strError .null .nil) strError))]) ∧
    (fieldsHasKey .nil strError = false ∧
      (ackHandlerRun 0 (.obj .nil) initClient).settled
        = initClient.settled ++ [(0, .resolvedWith (.obj .nil))]) :=
  ⟨⟨by decide, (c10_own_property_presence 0 (.cons strError .null .nil) initClient).1 (by decide)⟩,
   ⟨by decide, (c10_own_property_presence 0 .nil initClient).2 (by decide)⟩⟩

end MoleculerWsClient
